import Mathlib

/-!
Verification of the ExploreTheCity core: a shallow embedding in Lean 4 of the
geospatial grid (`domain/geo/grid.ts`), the haversine distance
(`domain/geo/distance.ts`), the tracking state machine
(`domain/tracking/tracker.ts`), the sync buffer
(`utils/tracking/TrackingContext.tsx`, `domain/tracking/sync.ts`), the quest
matcher (`utils/firebase/imageQuest.ts`) and the retry policy
(`utils/gemini.ts`).  JavaScript numbers are modelled as exact real numbers
(rationals never suffice because of `Math.cos` / `Math.sin`); machine floats
are idealized.  Fallible asynchronous calls are modelled as `Except` values
and external effects (Firestore writes, oracle calls) as explicit data
returned by the embedded functions.
-/

open Real

/-! ### Geo primitives: `domain/geo/grid.ts` -/

/-- `LatLng` from `domain/geo/grid.ts`: a location given by latitude and
longitude in degrees. -/
structure LatLng where
  lat : ℝ
  lng : ℝ

/-- `CellId` from `domain/geo/grid.ts`: a string of shape `"x_y"`. -/
abbrev CellId := String

/-- `CELL_SIZE_METERS = 50` from `domain/geo/grid.ts`. -/
def CELL_SIZE_METERS : ℝ := 50

/-- `ORIGIN` from `domain/geo/grid.ts`: the fixed reference point. -/
def ORIGIN : LatLng := { lat := 45.75372, lng := 21.22571 }

/-- `METERS_PER_DEG_LAT = 111_320` from `domain/geo/grid.ts`. -/
def METERS_PER_DEG_LAT : ℝ := 111320

/-- `metersPerDegLng` from `domain/geo/grid.ts`:
`111_320 * Math.cos((lat * Math.PI) / 180)`. -/
noncomputable def metersPerDegLng (lat : ℝ) : ℝ :=
  111320 * Real.cos ((lat * π) / 180)

/-! ### JavaScript string helpers used by the grid code

`latLngToCell` builds the template literal `` `${xIndex}_${yIndex}` `` and
`cellCenter` / `cellToPolygon` recover the indices with
`cellId.split("_")` and `parseInt(-, 10)`.  We model `split("_")` (a
single-character separator splits at every occurrence of that character)
and `parseInt` (optional sign, then a maximal run of decimal digits; the
`NaN` outcome of JS on digit-free input is collapsed to `0` by `getD` —
every id parsed in this development is a canonical `"x_y"` string, where
the two semantics agree). -/

/-- JS `s.split("_")`: split the character list at every `'_'`. -/
def jsSplitUnderscore (s : String) : List String :=
  (s.data.splitOnP (· == '_')).map (fun cs => String.mk cs)

/-- Value of a maximal leading run of decimal digits, JS `parseInt` style:
`none` when the run is empty. -/
def parseNatPrefix (cs : List Char) : Option ℕ :=
  let ds := cs.takeWhile (·.isDigit)
  if ds.isEmpty then none
  else some (ds.foldl (fun n c => n * 10 + (c.toNat - '0'.toNat)) 0)

/-- JS `parseInt(s, 10)`: optional `'-'` sign, then leading digits. -/
def parseIntJS (s : String) : Option ℤ :=
  if s.data.head? = some '-' then
    (parseNatPrefix s.data.tail).map (fun n => -(n : ℤ))
  else
    (parseNatPrefix s.data).map (fun n => (n : ℤ))

/-- `parseIntJS` with JS `NaN` collapsed to `0` (never hit on canonical ids). -/
def parseIntD (s : String) : ℤ := (parseIntJS s).getD 0

/-- Specification of the decimal digit list of a natural number
(most significant first); equal to `Nat.toDigits 10` and used to reason
about the `"x_y"` ids produced by `toString`. -/
def natDigits (n : ℕ) : List Char :=
  if h : n < 10 then [Nat.digitChar n]
  else natDigits (n / 10) ++ [Nat.digitChar (n % 10)]
decreasing_by exact Nat.div_lt_self (by omega) (by omega)

/-- `latLngToCell` from `domain/geo/grid.ts`: offset from `ORIGIN` in degrees,
converted to planar meters, floored per 50 m cell, and rendered as the
template literal `` `${xIndex}_${yIndex}` ``. -/
noncomputable def latLngToCell (location : LatLng) : CellId :=
  let dLat := location.lat - ORIGIN.lat
  let dLng := location.lng - ORIGIN.lng
  let mPerDegLng := metersPerDegLng ORIGIN.lat
  let xMeters := dLng * mPerDegLng
  let yMeters := dLat * METERS_PER_DEG_LAT
  let xIndex := ⌊xMeters / CELL_SIZE_METERS⌋
  let yIndex := ⌊yMeters / CELL_SIZE_METERS⌋
  toString xIndex ++ "_" ++ toString yIndex

/-- `metersToLatLng` from `domain/geo/grid.ts`. -/
noncomputable def metersToLatLng (xMeters yMeters : ℝ) : LatLng :=
  let dLat := yMeters / METERS_PER_DEG_LAT
  let mPerDegLng := metersPerDegLng ORIGIN.lat
  let dLng := xMeters / mPerDegLng
  { lat := ORIGIN.lat + dLat, lng := ORIGIN.lng + dLng }

/-- `cellCenter` from `domain/geo/grid.ts`: parse `"x_y"` back into indices
and return the geographic center of the cell. -/
noncomputable def cellCenter (cellId : CellId) : LatLng :=
  let parts := jsSplitUnderscore cellId
  let xIndex := parseIntD (parts.getD 0 "")
  let yIndex := parseIntD (parts.getD 1 "")
  let xCenterMeters := ((xIndex : ℝ) + 0.5) * CELL_SIZE_METERS
  let yCenterMeters := ((yIndex : ℝ) + 0.5) * CELL_SIZE_METERS
  metersToLatLng xCenterMeters yCenterMeters

/-- `cellToPolygon` from `domain/geo/grid.ts`: corners NW, NE, SE, SW. -/
noncomputable def cellToPolygon (cellId : CellId) : List LatLng :=
  let parts := jsSplitUnderscore cellId
  let xIndex := parseIntD (parts.getD 0 "")
  let yIndex := parseIntD (parts.getD 1 "")
  let half := CELL_SIZE_METERS / 2
  let xCenter := ((xIndex : ℝ) + 0.5) * CELL_SIZE_METERS
  let yCenter := ((yIndex : ℝ) + 0.5) * CELL_SIZE_METERS
  [ metersToLatLng (xCenter - half) (yCenter + half)
  , metersToLatLng (xCenter + half) (yCenter + half)
  , metersToLatLng (xCenter + half) (yCenter - half)
  , metersToLatLng (xCenter - half) (yCenter - half) ]

/-! ### Distance: `domain/geo/distance.ts` -/

/-- `EARTH_RADIUS_METERS = 6_371_000` from `domain/geo/distance.ts`. -/
def EARTH_RADIUS_METERS : ℝ := 6371000

/-- JS `Math.atan2(y, x)` (quadrant-aware arctangent). -/
noncomputable def atan2 (y x : ℝ) : ℝ :=
  if 0 < x then Real.arctan (y / x)
  else if x < 0 ∧ 0 ≤ y then Real.arctan (y / x) + π
  else if x < 0 ∧ y < 0 then Real.arctan (y / x) - π
  else if x = 0 ∧ 0 < y then π / 2
  else if x = 0 ∧ y < 0 then -(π / 2)
  else 0

/-- `toRad` helper inside `haversineDistance`. -/
noncomputable def toRad (deg : ℝ) : ℝ := (deg * π) / 180

/-- `haversineDistance` from `domain/geo/distance.ts`. -/
noncomputable def haversineDistance (a b : LatLng) : ℝ :=
  let dLat := toRad (b.lat - a.lat)
  let dLng := toRad (b.lng - a.lng)
  let lat1 := toRad a.lat
  let lat2 := toRad b.lat
  let sinDLat := Real.sin (dLat / 2)
  let sinDLng := Real.sin (dLng / 2)
  let h := sinDLat * sinDLat + Real.cos lat1 * Real.cos lat2 * sinDLng * sinDLng
  let c := 2 * atan2 (Real.sqrt h) (Real.sqrt (1 - h))
  EARTH_RADIUS_METERS * c

/-! ### Tracking state machine: `domain/tracking/tracker.ts` -/

/-- `TrackingState` from `domain/tracking/tracker.ts`; the JS `Set<CellId>`
is a `Finset`. -/
structure TrackingState where
  lastLocation : Option LatLng
  totalDistanceMeters : ℝ
  points : ℝ
  visitedCells : Finset CellId

/-- `createInitialTrackingState` from `domain/tracking/tracker.ts`. -/
def createInitialTrackingState : TrackingState :=
  { lastLocation := none
  , totalDistanceMeters := 0
  , points := 0
  , visitedCells := ∅ }

/-- `LocationUpdateResult` from `domain/tracking/tracker.ts`. -/
structure LocationUpdateResult where
  state : TrackingState
  gainedDistance : ℝ
  gainedPoints : ℝ
  newCellVisited : Bool
  lastCellId : CellId

open Classical in
/-- `handleLocationUpdate` from `domain/tracking/tracker.ts`: distance gain
(with the 3 m anti-jitter filter awarding `dist * 0.1` points), the +50
new-cell bonus, and the updated state (the source clones `visitedCells`
before mutating; the clone-vs-alias distinction is modelled separately by
`handleLocationUpdateRef`). -/
noncomputable def handleLocationUpdate (prevState : TrackingState)
    (newLocation : LatLng) : LocationUpdateResult :=
  let distPair : ℝ × ℝ :=
    match prevState.lastLocation with
    | some last =>
      let dist := haversineDistance last newLocation
      if dist > 3 then (dist, dist * 0.1) else (0, 0)
    | none => (0, 0)
  let gainedDistance := distPair.1
  let cellId := latLngToCell newLocation
  let alreadyHad := cellId ∈ prevState.visitedCells
  let gainedPoints := distPair.2 + (if alreadyHad then 0 else 50)
  { state :=
    { lastLocation := some newLocation
    , totalDistanceMeters := prevState.totalDistanceMeters + gainedDistance
    , points := prevState.points + gainedPoints
    , visitedCells :=
        if alreadyHad then prevState.visitedCells
        else insert cellId prevState.visitedCells }
  , gainedDistance := gainedDistance
  , gainedPoints := gainedPoints
  , newCellVisited := decide (¬ alreadyHad)
  , lastCellId := cellId }

/-! ### Reference-level rendering of `handleLocationUpdate`

The frame property of `handleLocationUpdate` (the previous state is not
mutated) is about JS heap references: the source writes
`const state = { ...prevState, visitedCells: new Set(prevState.visitedCells) }`
and then calls `state.visitedCells.add(cellId)` on the fresh clone.  To make
that observable we re-render the function over an explicit heap of `Set`
objects: a `Heap` is the list of allocated sets, and a state holds an index
into it. -/

/-- The allocated `Set<CellId>` objects of the JS heap. -/
abbrev Heap := List (Finset CellId)

/-- `TrackingState` with `visitedCells` as a heap reference. -/
structure TrackingStateRef where
  lastLocation : Option LatLng
  totalDistanceMeters : ℝ
  points : ℝ
  visitedCells : ℕ

open Classical in
/-- `handleLocationUpdate` rendered over the explicit heap: the clone
`new Set(prevState.visitedCells)` is a fresh allocation at the end of the
heap, and the later `add` mutates only that fresh object. -/
noncomputable def handleLocationUpdateRef (h : Heap) (prevState : TrackingStateRef)
    (newLocation : LatLng) : Heap × TrackingStateRef × ℝ × ℝ × Bool × CellId :=
  let cloneRef := h.length
  let h1 := h ++ [h.getD prevState.visitedCells ∅]
  let distPair : ℝ × ℝ :=
    match prevState.lastLocation with
    | some last =>
      let dist := haversineDistance last newLocation
      if dist > 3 then (dist, dist * 0.1) else (0, 0)
    | none => (0, 0)
  let gainedDistance := distPair.1
  let cellId := latLngToCell newLocation
  let alreadyHad := cellId ∈ h1.getD cloneRef ∅
  let gainedPoints := distPair.2 + (if alreadyHad then 0 else 50)
  let h2 :=
    if alreadyHad then h1
    else h1.set cloneRef (insert cellId (h1.getD cloneRef ∅))
  ( h2
  , { lastLocation := some newLocation
    , totalDistanceMeters := prevState.totalDistanceMeters + gainedDistance
    , points := prevState.points + gainedPoints
    , visitedCells := cloneRef }
  , gainedDistance
  , gainedPoints
  , decide (¬ alreadyHad)
  , cellId )

/-! ### Sync buffer: `utils/tracking/TrackingContext.tsx` and
`domain/tracking/sync.ts` -/

/-- JS `Math.round` (round half toward positive infinity). -/
noncomputable def jsRound (x : ℝ) : ℤ := ⌊x + 1 / 2⌋

/-- JS `[...new Set(xs)]`: drop later duplicates, keep first occurrences. -/
def jsDedup (xs : List CellId) : List CellId :=
  xs.foldl (fun acc a => if a ∈ acc then acc else acc ++ [a]) []

/-- JS falsiness of an optional string (`undefined` or `""`). -/
def jsFalsyStr : Option String → Bool
  | none => true
  | some s => s = ""

/-- The Firestore payload built by `syncBatchToFirebase`
(`domain/tracking/sync.ts`): an optional `increment` on `accumulatedScore`
and an `arrayUnion` over `mapGridIds`. -/
structure SyncPayload where
  scoreIncrement : Option ℤ
  mapGridIds : Option (List CellId)

open Classical in
/-- `syncBatchToFirebase` from `domain/tracking/sync.ts`, modelled by the
Firestore write it issues (`none` when it returns without writing): skip on
falsy `clientId`, skip when there is nothing useful to send, round the
points, include the `increment` only when the rounded delta is nonzero and
the `arrayUnion` only when there are cell ids. -/
noncomputable def syncBatchToFirebase (clientId : Option String)
    (cellIds : List CellId) (gainedPoints : ℝ) : Option SyncPayload :=
  if jsFalsyStr clientId then none
  else if cellIds.length = 0 ∧ gainedPoints ≤ 0 then none
  else
    let roundedPoints := jsRound gainedPoints
    some { scoreIncrement := if roundedPoints ≠ 0 then some roundedPoints else none
         , mapGridIds := if cellIds.length > 0 then some cellIds else none }

/-- The pending buffer of `TrackingContext.tsx`
(`pendingCellsRef` / `pendingPointsRef`). -/
structure PendingBuffer where
  pendingCellIds : List CellId
  pendingPoints : ℝ

/-- Arguments of a `syncBatchToFirebase` call issued by the provider. -/
structure SyncCall where
  clientId : String
  cellIds : List CellId
  points : ℝ

open Classical in
/-- `flushBuffer` from `utils/tracking/TrackingContext.tsx`: no-op on an
empty buffer or a missing client id, otherwise snapshot the deduplicated
cell ids and the points, clear the buffer, and only then issue the
fire-and-forget `syncBatchToFirebase` call. -/
noncomputable def flushBuffer (clientId : Option String) (b : PendingBuffer) :
    PendingBuffer × Option SyncCall :=
  if b.pendingCellIds.length = 0 ∧ b.pendingPoints = 0 then (b, none)
  else if jsFalsyStr clientId then (b, none)
  else
    let cellsToSync := jsDedup b.pendingCellIds
    let pointsToSync := b.pendingPoints
    ( { pendingCellIds := [], pendingPoints := 0 }
    , some { clientId := clientId.getD "", cellIds := cellsToSync, points := pointsToSync } )

/-- The `.catch(err => console.error(...))` continuation attached to the
flush's `syncBatchToFirebase` promise: it only logs, so the buffer state it
produces is the buffer state it received. -/
def onSyncFailure (b : PendingBuffer) : PendingBuffer := b

/-- The provider-level state of `TrackingContext.tsx`: the tracking state,
the rendered cell centers, and the pending buffer refs. -/
structure ProviderState where
  trackingState : TrackingState
  visitedCellsLocations : List LatLng
  pendingCellIds : List CellId
  pendingPoints : ℝ

open Classical in
/-- `onLocationUpdate` from `utils/tracking/TrackingContext.tsx`: fold the
fix through `handleLocationUpdate`, append a fresh cell id to the pending
buffer (deduplicated on entry), accumulate the gained points, and when the
pending list has reached 10 cells (and a client id is present) auto-flush:
snapshot deduplicated cells and points, clear the buffer, issue the call. -/
noncomputable def onLocationUpdate (clientId : Option String)
    (ps : ProviderState) (newLoc : LatLng) : ProviderState × Option SyncCall :=
  let result := handleLocationUpdate ps.trackingState newLoc
  let visitedCellsLocations1 :=
    if result.newCellVisited then
      let center := cellCenter result.lastCellId
      if ¬ ps.visitedCellsLocations.any
          (fun loc => decide (loc.lat = center.lat) && decide (loc.lng = center.lng)) then
        ps.visitedCellsLocations ++ [center]
      else ps.visitedCellsLocations
    else ps.visitedCellsLocations
  let pendingCells1 :=
    if result.newCellVisited ∧ result.lastCellId ∉ ps.pendingCellIds then
      ps.pendingCellIds ++ [result.lastCellId]
    else ps.pendingCellIds
  let pendingPoints1 := ps.pendingPoints + result.gainedPoints
  if pendingCells1.length ≥ 10 ∧ ¬ jsFalsyStr clientId then
    let cellsToSync := jsDedup pendingCells1
    let pointsToSync := pendingPoints1
    ( { trackingState := result.state
      , visitedCellsLocations := visitedCellsLocations1
      , pendingCellIds := []
      , pendingPoints := 0 }
    , some { clientId := clientId.getD "", cellIds := cellsToSync, points := pointsToSync } )
  else
    ( { trackingState := result.state
      , visitedCellsLocations := visitedCellsLocations1
      , pendingCellIds := pendingCells1
      , pendingPoints := pendingPoints1 }
    , none )

/-- Run a sequence of location fixes through `onLocationUpdate`, collecting
every `syncBatchToFirebase` call that is issued. -/
noncomputable def runUpdates (clientId : Option String) (ps : ProviderState) :
    List LatLng → ProviderState × List SyncCall
  | [] => (ps, [])
  | loc :: rest =>
    let step := onLocationUpdate clientId ps loc
    let restRun := runUpdates clientId step.1 rest
    (restRun.1, (step.2.toList) ++ restRun.2)

/-! ### Quest matcher: `utils/firebase/imageQuest.ts` -/

/-- `CONFIDENCE_THRESHOLD = 90` from `utils/firebase/imageQuest.ts`. -/
def CONFIDENCE_THRESHOLD : ℝ := 90

/-- `ImageQuest` as produced by `getAllImageQuests`. -/
structure ImageQuest where
  questId : String
  orgId : String
  description : String
  latitude : ℝ
  longitude : ℝ
  imageUrl : String
  score : ℝ
  questRadius : ℝ

/-- `ImageComparisonResult` from `models/ImageQuest`: the oracle's verdict.
`matchedQuestId` is the optional field `findMatchingQuest` fills in. -/
structure ImageComparisonResult where
  isMatch : Bool
  confidence : ℝ
  reasoning : String
  matchedQuestId : Option String := none

/-- Outcome of `findMatchingQuest`. -/
structure MatchOutcome where
  quest : Option ImageQuest
  comparisonResult : ImageComparisonResult

/-- The `compareImages` oracle (`utils/gemini.ts`) as consumed by
`findMatchingQuest`: given the user image URI, the reference image URL and
the quest description it either returns a verdict or throws. -/
def CompareOracle := String → String → String → Except String ImageComparisonResult

open Classical in
/-- The candidate loop of `findMatchingQuest`: walk the unsolved quests,
skip a quest with a falsy `imageUrl`, swallow a throwing comparison
(`catch` + continue), and keep the best match among results with
`isMatch && confidence >= CONFIDENCE_THRESHOLD`, replacing it only on
strictly higher confidence. -/
noncomputable def bestMatchLoop (compareImages : CompareOracle)
    (userImageUri : String) (quests : List ImageQuest) :
    Option (ImageQuest × ImageComparisonResult) :=
  quests.foldl (fun bestMatch quest =>
    if quest.imageUrl = "" then bestMatch
    else
      match compareImages userImageUri quest.imageUrl quest.description with
      | .error _ => bestMatch
      | .ok comparisonResult =>
        if comparisonResult.isMatch = true
            ∧ comparisonResult.confidence ≥ CONFIDENCE_THRESHOLD
            ∧ (bestMatch = none
               ∨ ∀ best ∈ bestMatch, comparisonResult.confidence > best.2.confidence) then
          some (quest, comparisonResult)
        else bestMatch) none

open Classical in
/-- `findMatchingQuest` from `utils/firebase/imageQuest.ts`: filter the
quests by their own radius around the user, drop the ones in the client's
solved list, run the comparison loop, and wrap the outcome.  The quest list
and the solved-id list stand for the Firestore reads. -/
noncomputable def findMatchingQuest (allQuests : List ImageQuest)
    (solvedQuestIds : List String) (compareImages : CompareOracle)
    (userImageUri : String) (userLocation : LatLng) : MatchOutcome :=
  let nearbyQuests := allQuests.filter (fun quest =>
    decide (haversineDistance userLocation
      { lat := quest.latitude, lng := quest.longitude } ≤ quest.questRadius))
  if nearbyQuests.length = 0 then
    { quest := none
    , comparisonResult :=
      { isMatch := false, confidence := 0
      , reasoning := "Nu există quest-uri disponibile în locația ta curentă" } }
  else
    let unsolvedQuests := nearbyQuests.filter (fun q => ¬ solvedQuestIds.contains q.questId)
    if unsolvedQuests.length = 0 then
      { quest := none
      , comparisonResult :=
        { isMatch := false, confidence := 0
        , reasoning := "Toate quest-urile din apropiere au fost completate" } }
    else
      match bestMatchLoop compareImages userImageUri unsolvedQuests with
      | none =>
        { quest := none
        , comparisonResult :=
          { isMatch := false, confidence := 0
          , reasoning := "Nu s-a găsit niciun quest potrivit în această zonă" } }
      | some bestMatch =>
        { quest := some bestMatch.1
        , comparisonResult :=
          { bestMatch.2 with matchedQuestId := some bestMatch.1.questId } }

/-- The per-client Firestore document as read and written by
`imageQuest.ts`: the solved-quest id list and the accumulated score. -/
structure ClientDoc where
  imageQuestSolvedIds : List String
  accumulatedScore : ℝ

/-- Firestore `arrayUnion(x)` on a list field: append `x` unless present. -/
def arrayUnion (x : String) (xs : List String) : List String :=
  if x ∈ xs then xs else xs ++ [x]

/-- `markQuestAsSolved` from `utils/firebase/imageQuest.ts`, modelled by its
effect on the client document: `updateDoc` with
`imageQuestSolvedIds: arrayUnion(questId)` and
`accumulatedScore: increment(pointsEarned)`.  There is no membership check
on the solved list before the increment. -/
def markQuestAsSolved (clientDoc : ClientDoc) (questId : String)
    (pointsEarned : ℝ) : ClientDoc :=
  { imageQuestSolvedIds := arrayUnion questId clientDoc.imageQuestSolvedIds
  , accumulatedScore := clientDoc.accumulatedScore + pointsEarned }

/-! ### Retry policy: `retryWithBackoff` in `utils/gemini.ts`

The wrapped call is modelled as a sequence of outcomes indexed by the
attempt number (the thunk is re-invoked each attempt and may behave
differently), an error being its `message` string.  The observable trace
records the result, the number of invocations of the thunk, and the backoff
waits performed between attempts, in milliseconds.  The unconditional
`waitForRateLimit()` pause before each call belongs to the process-wide
rate limiter, not to the backoff policy, and is not part of the trace. -/

/-- JS `s.includes(t)`: substring test. -/
def jsIncludes (s t : String) : Bool := decide (t.data <:+: s.data)

/-- Observable trace of one `retryWithBackoff` run. -/
structure RetryTrace (T : Type) where
  result : Except String T
  calls : ℕ
  delays : List ℕ
  deriving Repr

/-- The `for (let attempt = 0; attempt < maxRetries; attempt++)` loop of
`retryWithBackoff`, recursing on the remaining iteration count with
`attempt = maxRetries - remaining`.  Errors whose message contains `400` or
`404` are rethrown at once; a message containing `429` waits
`20000 * 3 ^ attempt` ms when another iteration follows; any other error
waits `baseDelay * 2 ^ attempt` ms when another iteration follows; when the
loop ends the last error is thrown. -/
def retryLoop {T : Type} (fn : ℕ → Except String T) (maxRetries baseDelay : ℕ) :
    (remaining attempt : ℕ) → Option String → RetryTrace T
  | 0, _, lastError => { result := .error (lastError.getD ""), calls := 0, delays := [] }
  | remaining + 1, attempt, _ =>
    match fn attempt with
    | .ok v => { result := .ok v, calls := 1, delays := [] }
    | .error e =>
      if jsIncludes e "400" || jsIncludes e "404" then
        { result := .error e, calls := 1, delays := [] }
      else if jsIncludes e "429" then
        let waits := if attempt < maxRetries - 1 then [20000 * 3 ^ attempt] else []
        let rest := retryLoop fn maxRetries baseDelay remaining (attempt + 1) (some e)
        { result := rest.result, calls := rest.calls + 1, delays := waits ++ rest.delays }
      else
        let waits := if attempt < maxRetries - 1 then [baseDelay * 2 ^ attempt] else []
        let rest := retryLoop fn maxRetries baseDelay remaining (attempt + 1) (some e)
        { result := rest.result, calls := rest.calls + 1, delays := waits ++ rest.delays }

/-- `retryWithBackoff` from `utils/gemini.ts` with its default arguments
`maxRetries = 2`, `baseDelay = 10000` (the only call site, in
`compareImages`, passes exactly these values). -/
def retryWithBackoff {T : Type} (fn : ℕ → Except String T)
    (maxRetries : ℕ := 2) (baseDelay : ℕ := 10000) : RetryTrace T :=
  retryLoop fn maxRetries baseDelay maxRetries 0 none

/-! ## Lemmas

First the string infrastructure relating `toString` on integers to the
`split` / `parseInt` model, then the geometric facts, then the claims. -/

theorem digitChar_isDigit {m : ℕ} (h : m < 10) : (Nat.digitChar m).isDigit = true := by
  interval_cases m <;> decide

theorem digitChar_sub_zero {m : ℕ} (h : m < 10) :
    (Nat.digitChar m).toNat - '0'.toNat = m := by
  interval_cases m <;> decide

theorem natDigits_ne_nil (n : ℕ) : natDigits n ≠ [] := by
  rw [natDigits]
  split <;> simp

theorem isDigit_of_mem_natDigits {n : ℕ} {c : Char} (h : c ∈ natDigits n) :
    c.isDigit = true := by
  induction n using Nat.strong_induction_on with
  | _ n ih =>
    rw [natDigits] at h
    split at h
    · rcases List.mem_singleton.mp h with rfl
      exact digitChar_isDigit (by omega)
    · rcases List.mem_append.mp h with h' | h'
      · exact ih (n / 10) (Nat.div_lt_self (by omega) (by omega)) h'
      · rcases List.mem_singleton.mp h' with rfl
        exact digitChar_isDigit (Nat.mod_lt _ (by omega))

theorem toDigitsCore_eq_natDigits :
    ∀ (fuel n : ℕ) (ds : List Char), n < fuel →
      Nat.toDigitsCore 10 fuel n ds = natDigits n ++ ds := by
  intro fuel
  induction fuel with
  | zero => intro n ds h; omega
  | succ fuel ih =>
    intro n ds h
    rw [Nat.toDigitsCore]
    by_cases h10 : n / 10 = 0
    · have hn : n < 10 := by omega
      simp only [h10, if_pos]
      rw [natDigits, dif_pos hn, Nat.mod_eq_of_lt hn]
      rfl
    · have hn : ¬ n < 10 := by
        intro hlt
        exact h10 (Nat.div_eq_of_lt hlt)
      have hexp : natDigits n = natDigits (n / 10) ++ [Nat.digitChar (n % 10)] := by
        conv_lhs => rw [natDigits]
        rw [dif_neg hn]
      simp only [h10, if_neg, ite_false]
      rw [ih (n / 10) _ (by omega), hexp, List.append_assoc]
      rfl

theorem data_repr_eq_natDigits (n : ℕ) : (Nat.repr n).data = natDigits n := by
  show (Nat.toDigits 10 n).asString.data = natDigits n
  rw [Nat.toDigits]
  show Nat.toDigitsCore 10 (n + 1) n [] = natDigits n
  rw [toDigitsCore_eq_natDigits (n + 1) n [] (by omega), List.append_nil]

theorem foldl_natDigits (n : ℕ) :
    ∀ v : ℕ,
      (natDigits n).foldl (fun a c => a * 10 + (c.toNat - '0'.toNat)) v =
        v * 10 ^ (natDigits n).length + n := by
  induction n using Nat.strong_induction_on with
  | _ n ih =>
    intro v
    rw [natDigits]
    split
    case isTrue h =>
      simp only [List.foldl_cons, List.foldl_nil, List.length_cons, List.length_nil,
        Nat.zero_add, pow_one]
      rw [digitChar_sub_zero h]
    case isFalse h =>
      rw [List.foldl_append, ih (n / 10) (Nat.div_lt_self (by omega) (by omega)) v]
      simp only [List.foldl_cons, List.foldl_nil, List.length_append, List.length_cons,
        List.length_nil, Nat.zero_add, pow_succ]
      rw [digitChar_sub_zero (Nat.mod_lt n (by omega))]
      generalize (10 : ℕ) ^ (natDigits (n / 10)).length = A
      have hstep : (v * A + n / 10) * 10 = v * (A * 10) + (n / 10) * 10 := by ring
      rw [hstep, Nat.add_assoc]
      congr 1
      omega

theorem takeWhile_natDigits (n : ℕ) :
    (natDigits n).takeWhile (·.isDigit) = natDigits n :=
  List.takeWhile_eq_self_iff.mpr (fun c hc => isDigit_of_mem_natDigits hc)

theorem parseNatPrefix_natDigits (n : ℕ) : parseNatPrefix (natDigits n) = some n := by
  rw [parseNatPrefix]
  simp only [takeWhile_natDigits]
  rw [if_neg (by simp [natDigits_ne_nil n])]
  rw [foldl_natDigits n 0]
  simp

theorem data_toString_intCast :
    ∀ x : ℤ,
      (toString x).data =
        match x with
        | Int.ofNat m => natDigits m
        | Int.negSucc m => '-' :: natDigits (m + 1) := by
  intro x
  cases x with
  | ofNat m =>
    show (Nat.repr m).data = natDigits m
    exact data_repr_eq_natDigits m
  | negSucc m =>
    show ("-" ++ Nat.repr (m + 1)).data = '-' :: natDigits (m + 1)
    rw [String.data_append, data_repr_eq_natDigits]
    rfl

theorem head_natDigits_ne_dash {n : ℕ} {c : Char} {rest : List Char}
    (h : natDigits n = c :: rest) : (c = '-') = False := by
  have hmem : c ∈ natDigits n := by rw [h]; exact List.mem_cons_self c rest
  have hd := isDigit_of_mem_natDigits hmem
  simp only [eq_iff_iff, iff_false]
  intro hc
  rw [hc] at hd
  exact absurd hd (by decide)

theorem parseIntD_toString (x : ℤ) : parseIntD (toString x) = x := by
  rw [parseIntD, parseIntJS]
  cases x with
  | ofNat m =>
    rcases hd : natDigits m with _ | ⟨c, rest⟩
    · exact absurd hd (natDigits_ne_nil m)
    · rw [data_toString_intCast (Int.ofNat m)]
      simp only
      rw [hd]
      rw [if_neg (by simp [head_natDigits_ne_dash hd])]
      rw [← hd, parseNatPrefix_natDigits]
      rfl
  | negSucc m =>
    rw [data_toString_intCast (Int.negSucc m)]
    simp only [List.head?_cons, Option.some.injEq, if_pos rfl, List.tail_cons]
    rw [parseNatPrefix_natDigits]
    simp [Int.negSucc_eq]

theorem notMem_underscore_toString (x : ℤ) : ('_' ∈ (toString x).data) = False := by
  simp only [eq_iff_iff, iff_false]
  intro hmem
  rw [data_toString_intCast x] at hmem
  cases x with
  | ofNat m =>
    simp only at hmem
    have := isDigit_of_mem_natDigits hmem
    exact absurd this (by decide)
  | negSucc m =>
    simp only [List.mem_cons] at hmem
    rcases hmem with h | h
    · exact absurd h (by decide)
    · have := isDigit_of_mem_natDigits h
      exact absurd this (by decide)

theorem no_underscore_sat (z : ℤ) :
    ∀ c ∈ (toString z).data, ¬((c == '_') = true) := by
  intro c hc hceq
  have hmem := notMem_underscore_toString z
  rw [eq_iff_iff, iff_false] at hmem
  rw [beq_iff_eq] at hceq
  rw [hceq] at hc
  exact hmem hc

theorem jsSplitUnderscore_pair (x y : ℤ) :
    jsSplitUnderscore (toString x ++ "_" ++ toString y) = [toString x, toString y] := by
  rw [jsSplitUnderscore]
  have hdata : (toString x ++ "_" ++ toString y).data =
      (toString x).data ++ '_' :: (toString y).data := by
    rw [String.data_append, String.data_append]
    rw [show ("_" : String).data = ['_'] from rfl, List.append_assoc]
    rfl
  rw [hdata]
  rw [List.splitOnP_first _ _ (no_underscore_sat x) '_' (by decide) _]
  rw [List.splitOnP_eq_single _ _ (no_underscore_sat y)]
  simp only [List.map_cons, List.map_nil]

theorem haversineDistance_self (p : LatLng) : haversineDistance p p = 0 := by
  unfold haversineDistance toRad
  simp only [sub_self, zero_mul, zero_div, Real.sin_zero, mul_zero, zero_add, add_zero,
    Real.sqrt_zero, sub_zero, Real.sqrt_one]
  rw [atan2, if_pos one_pos]
  simp [Real.arctan_zero]

/-- C10 helper: on the very first fix `prevState.lastLocation` is `none`,
the whole visited set is empty, so only the cell bonus fires. -/
theorem handleLocationUpdate_initial (p : LatLng) :
    (handleLocationUpdate createInitialTrackingState p).gainedDistance = 0 ∧
    (handleLocationUpdate createInitialTrackingState p).newCellVisited = true ∧
    (handleLocationUpdate createInitialTrackingState p).gainedPoints = 50 := by
  simp [handleLocationUpdate, createInitialTrackingState]

/-- The cell of the new location is always in the returned visited set. -/
theorem lastCell_mem_visited (s : TrackingState) (p : LatLng) :
    latLngToCell p ∈ (handleLocationUpdate s p).state.visitedCells := by
  simp only [handleLocationUpdate]
  by_cases h : latLngToCell p ∈ s.visitedCells <;> simp [h]

/-! ## Claim theorems -/

/-- C10.  On the very first fix of a session, for every location `p`,
applying `handleLocationUpdate` to the initial empty state returns
`gainedDistance == 0`, `newCellVisited == true` and `gainedPoints == 50`,
regardless of `p`. -/
theorem firstFix_gainsOnlyCellBonus (p : LatLng) :
    (handleLocationUpdate createInitialTrackingState p).gainedDistance = 0 ∧
    (handleLocationUpdate createInitialTrackingState p).newCellVisited = true ∧
    (handleLocationUpdate createInitialTrackingState p).gainedPoints = 50 :=
  handleLocationUpdate_initial p

/-- C6.  Feeding the same location twice in a row: the second call returns
`gainedDistance == 0`, `gainedPoints == 0` and `newCellVisited == false`,
because the distance from `p` to itself is `0 ≤ 3` and `p`'s cell was added
to `visitedCells` by the first call. -/
theorem secondFixSamePoint_noGain (s : TrackingState) (p : LatLng) :
    (handleLocationUpdate (handleLocationUpdate s p).state p).gainedDistance = 0 ∧
    (handleLocationUpdate (handleLocationUpdate s p).state p).gainedPoints = 0 ∧
    (handleLocationUpdate (handleLocationUpdate s p).state p).newCellVisited = false := by
  have hmem : latLngToCell p ∈
      (if latLngToCell p ∈ s.visitedCells then s.visitedCells
       else insert (latLngToCell p) s.visitedCells) := by
    split <;> simp [*]
  have hlast : (handleLocationUpdate s p).state.lastLocation = some p := by
    simp [handleLocationUpdate]
  refine ⟨?_, ?_, ?_⟩ <;>
    simp [handleLocationUpdate, hlast, hmem, haversineDistance_self,
      show ¬((0 : ℝ) > 3) by norm_num]

/-- Reading an untouched index of a heap after `set` at another index. -/
theorem heap_getD_set_ne (l : Heap) {i j : ℕ} (h : i ≠ j) (a : Finset CellId) :
    (l.set i a).getD j ∅ = l.getD j ∅ := by
  rw [List.getD_eq_getElem?_getD, List.getD_eq_getElem?_getD, List.getElem?_set_ne h]

/-- C9.  `handleLocationUpdate` never mutates its input: rendered over the
explicit JS heap, every `Set` object allocated before the call — in
particular the previous state's `visitedCells` — holds the same elements
after the call, and the returned state points at a fresh clone, because the
source copies `{ ...prevState, visitedCells: new Set(prevState.visitedCells) }`
and only ever calls `add` on the clone. -/
theorem handleLocationUpdateRef_framePreserved (h : Heap) (s : TrackingStateRef)
    (p : LatLng) (hvalid : s.visitedCells < h.length) :
    (∀ r, r < h.length →
      (handleLocationUpdateRef h s p).1.getD r ∅ = h.getD r ∅) ∧
    (handleLocationUpdateRef h s p).2.1.visitedCells ≠ s.visitedCells ∧
    (handleLocationUpdateRef h s p).2.1.lastLocation = some p := by
  refine ⟨?_, ?_, ?_⟩
  · intro r hr
    simp only [handleLocationUpdateRef]
    split
    · exact List.getD_append _ _ _ _ hr
    · rw [heap_getD_set_ne _ (by omega : h.length ≠ r)]
      exact List.getD_append _ _ _ _ hr
  · simp only [handleLocationUpdateRef]
    omega
  · simp [handleLocationUpdateRef]

/-- Witness for C9 at the one-object heap `[∅]`, reference `0`, and the
origin coordinate. -/
theorem handleLocationUpdateRef_framePreserved_witness :
    (0 : ℕ) < ([(∅ : Finset CellId)] : Heap).length ∧
    ((∀ r, r < ([(∅ : Finset CellId)] : Heap).length →
      (handleLocationUpdateRef [∅] ⟨none, 0, 0, 0⟩ ORIGIN).1.getD r ∅ =
        ([(∅ : Finset CellId)] : Heap).getD r ∅) ∧
    (handleLocationUpdateRef [∅] ⟨none, 0, 0, 0⟩ ORIGIN).2.1.visitedCells ≠ 0 ∧
    (handleLocationUpdateRef [∅] ⟨none, 0, 0, 0⟩ ORIGIN).2.1.lastLocation = some ORIGIN) :=
  ⟨by decide, handleLocationUpdateRef_framePreserved [∅] ⟨none, 0, 0, 0⟩ ORIGIN (by decide)⟩

/-- C1 counterexample.  Calling the commit operation `markQuestAsSolved`
twice with the same quest id on a fresh client increments
`accumulatedScore` twice (to `200`), not once (`100`): the function applies
Firestore `increment` unconditionally, with no solved-set membership check
at commit time. -/
theorem markQuestAsSolved_twice_doubleCounts :
    (markQuestAsSolved (markQuestAsSolved ⟨[], 0⟩ "quest-1" 100) "quest-1" 100).accumulatedScore
        = 200 ∧
    ¬ (markQuestAsSolved (markQuestAsSolved ⟨[], 0⟩ "quest-1" 100) "quest-1" 100).accumulatedScore
        = 0 + 100 := by
  constructor <;> simp [markQuestAsSolved, arrayUnion] <;> norm_num

/-- C1 amended.  Committing the same quest id twice is idempotent only on
the solved-id list (Firestore `arrayUnion` deduplicates): the id ends up
present exactly once, but `accumulatedScore` grows by twice the quest's
score, because `markQuestAsSolved` performs no solved-set membership check
at commit time — deduplication happens only at candidate selection in
`findMatchingQuest`. -/
theorem markQuestAsSolved_twice_amended (d : ClientDoc) (q : String) (pts : ℝ)
    (hq : q ∉ d.imageQuestSolvedIds) :
    (markQuestAsSolved (markQuestAsSolved d q pts) q pts).accumulatedScore
        = d.accumulatedScore + 2 * pts ∧
    (markQuestAsSolved (markQuestAsSolved d q pts) q pts).imageQuestSolvedIds
        = d.imageQuestSolvedIds ++ [q] := by
  constructor
  · simp [markQuestAsSolved]
    ring
  · simp [markQuestAsSolved, arrayUnion, hq]

/-- Witness for the amended C1 on a fresh client document. -/
theorem markQuestAsSolved_twice_amended_witness :
    ("quest-1" ∉ (⟨[], 0⟩ : ClientDoc).imageQuestSolvedIds) ∧
    ((markQuestAsSolved (markQuestAsSolved ⟨[], 0⟩ "quest-1" 100) "quest-1" 100).accumulatedScore
        = (⟨[], 0⟩ : ClientDoc).accumulatedScore + 2 * 100 ∧
    (markQuestAsSolved (markQuestAsSolved ⟨[], 0⟩ "quest-1" 100) "quest-1" 100).imageQuestSolvedIds
        = (⟨[], 0⟩ : ClientDoc).imageQuestSolvedIds ++ ["quest-1"]) :=
  ⟨by decide, markQuestAsSolved_twice_amended ⟨[], 0⟩ "quest-1" 100 (by decide)⟩

/-- C2.  The retry wrapper makes only TWO invocations of the wrapped call,
not the three attempts the spec (and the source's own comments, "total 3
încercări cu prima") describe: the loop runs `attempt < maxRetries` with
`maxRetries = 2`, so a call failing every time with a retryable error is
invoked exactly twice before the last error is propagated. -/
theorem retryWithBackoff_onlyTwoCalls :
    (retryWithBackoff (T := Unit) (fun _ => .error "500 internal error") 2 10000).calls = 2 ∧
    (retryWithBackoff (T := Unit) (fun _ => .error "500 internal error") 2 10000).result
      = .error "500 internal error" ∧
    ¬ (retryWithBackoff (T := Unit) (fun _ => .error "500 internal error") 2 10000).calls = 3 :=
  ⟨by decide, rfl, by decide⟩

/-- C8.  Error classification of the retry wrapper, evaluated on uniform
error streams under the arguments the call site passes (`2, 10000`): `400`
and `404` messages are thrown at once with no retry and no wait; a `429`
message leads to one retry after a `20000 * 3 ^ 0 = 20000` ms wait; any
other message leads to one retry after a `10000 * 2 ^ 0 = 10000` ms wait.
The second waits the spec names (`60` s for `429`, `20` s otherwise, the
formulas at attempt `1`) are reached only with `maxRetries = 3`, one more
than the loop ever grants: with the actual `maxRetries = 2` no third
attempt and no second wait ever happens. -/
theorem retryWithBackoff_backoffSchedule :
    (retryWithBackoff (T := Unit) (fun _ => .error "400 bad request") 2 10000).calls = 1 ∧
    (retryWithBackoff (T := Unit) (fun _ => .error "400 bad request") 2 10000).delays = [] ∧
    (retryWithBackoff (T := Unit) (fun _ => .error "404 not found") 2 10000).calls = 1 ∧
    (retryWithBackoff (T := Unit) (fun _ => .error "404 not found") 2 10000).delays = [] ∧
    (retryWithBackoff (T := Unit) (fun _ => .error "429 rate limit") 2 10000).calls = 2 ∧
    (retryWithBackoff (T := Unit) (fun _ => .error "429 rate limit") 2 10000).delays = [20000] ∧
    (retryWithBackoff (T := Unit) (fun _ => .error "503 unavailable") 2 10000).calls = 2 ∧
    (retryWithBackoff (T := Unit) (fun _ => .error "503 unavailable") 2 10000).delays = [10000] ∧
    (retryWithBackoff (T := Unit) (fun _ => .error "429 rate limit") 3 10000).delays
      = [20000, 60000] ∧
    (retryWithBackoff (T := Unit) (fun _ => .error "503 unavailable") 3 10000).delays
      = [10000, 20000] := by
  decide

theorem jsDedup_foldl_spec :
    ∀ (xs acc : List CellId), acc.Nodup →
      (List.foldl (fun acc a => if a ∈ acc then acc else acc ++ [a]) acc xs).Nodup ∧
      (∀ c, c ∈ List.foldl (fun acc a => if a ∈ acc then acc else acc ++ [a]) acc xs ↔
        (c ∈ acc ∨ c ∈ xs)) := by
  intro xs
  induction xs with
  | nil =>
    intro acc h
    exact ⟨h, fun c => by simp⟩
  | cons x xs ih =>
    intro acc h
    rw [List.foldl_cons]
    by_cases hx : x ∈ acc
    · rw [if_pos hx]
      obtain ⟨h1, h2⟩ := ih acc h
      refine ⟨h1, fun c => ?_⟩
      rw [h2 c, List.mem_cons]
      constructor
      · rintro (hc | hc)
        · exact Or.inl hc
        · exact Or.inr (Or.inr hc)
      · rintro (hc | rfl | hc)
        · exact Or.inl hc
        · exact Or.inl hx
        · exact Or.inr hc
    · rw [if_neg hx]
      have hnodup : (acc ++ [x]).Nodup := by
        simp [List.nodup_append, h, hx]
      obtain ⟨h1, h2⟩ := ih (acc ++ [x]) hnodup
      refine ⟨h1, fun c => ?_⟩
      rw [h2 c]
      simp only [List.mem_append, List.mem_singleton, List.mem_cons]
      tauto

theorem jsDedup_nodup (xs : List CellId) : (jsDedup xs).Nodup :=
  (jsDedup_foldl_spec xs [] (by simp)).1

theorem mem_jsDedup (xs : List CellId) : ∀ c, c ∈ jsDedup xs ↔ c ∈ xs := by
  intro c
  have hspec := (jsDedup_foldl_spec xs [] (by simp)).2 c
  rw [jsDedup]
  rw [hspec]
  simp

/-- C4.  A non-trivial flush with a client id present snapshots the
deduplicated cell ids and the point total, clears the pending buffer
*before* the store call is issued (the returned buffer is already empty in
the same step that produces the call), the store call rounds the point
delta (`syncBatchToFirebase` applies `Math.round`), and the failure
continuation of the fire-and-forget call leaves the cleared buffer as it
is — nothing restores the snapshot on error. -/
theorem flushBuffer_clearsBeforeCall (cid : String) (b : PendingBuffer)
    (hne : ¬(b.pendingCellIds.length = 0 ∧ b.pendingPoints = 0)) (hcid : ¬ cid = "") :
    (flushBuffer (some cid) b).1.pendingCellIds = [] ∧
    (flushBuffer (some cid) b).1.pendingPoints = 0 ∧
    (flushBuffer (some cid) b).2 =
      some ⟨cid, jsDedup b.pendingCellIds, b.pendingPoints⟩ ∧
    (jsDedup b.pendingCellIds).Nodup ∧
    (∀ c, c ∈ jsDedup b.pendingCellIds ↔ c ∈ b.pendingCellIds) ∧
    (∀ call ∈ (flushBuffer (some cid) b).2,
      ¬(call.cellIds.length = 0 ∧ call.points ≤ 0) →
        syncBatchToFirebase (some call.clientId) call.cellIds call.points =
          some ⟨if jsRound call.points ≠ 0 then some (jsRound call.points) else none,
                if call.cellIds.length > 0 then some call.cellIds else none⟩) ∧
    onSyncFailure (flushBuffer (some cid) b).1 = (flushBuffer (some cid) b).1 := by
  have hfb : flushBuffer (some cid) b =
      (⟨[], 0⟩, some ⟨cid, jsDedup b.pendingCellIds, b.pendingPoints⟩) := by
    rw [flushBuffer, if_neg hne]
    simp [jsFalsyStr, hcid]
  rw [hfb]
  refine ⟨rfl, rfl, rfl, jsDedup_nodup _, mem_jsDedup _, ?_, rfl⟩
  intro call hcall hne2
  simp only [Option.mem_def, Option.some.injEq] at hcall
  subst hcall
  rw [syncBatchToFirebase, if_neg (by simp [jsFalsyStr, hcid]), if_neg hne2]

/-- Witness for C4 on the buffer `(["a", "b", "a"], 3)` and client
`"client-1"`. -/
theorem flushBuffer_clearsBeforeCall_witness :
    ¬((⟨["a", "b", "a"], 3⟩ : PendingBuffer).pendingCellIds.length = 0 ∧
      (⟨["a", "b", "a"], 3⟩ : PendingBuffer).pendingPoints = 0) ∧
    ¬ ("client-1" : String) = "" ∧
    (flushBuffer (some "client-1") ⟨["a", "b", "a"], 3⟩).1.pendingCellIds = [] ∧
    (flushBuffer (some "client-1") ⟨["a", "b", "a"], 3⟩).2 =
      some ⟨"client-1", jsDedup ["a", "b", "a"], 3⟩ :=
  ⟨fun hc => absurd hc.1 (by decide), by decide,
    (flushBuffer_clearsBeforeCall "client-1" ⟨["a", "b", "a"], 3⟩
      (fun hc => absurd hc.1 (by decide)) (by decide)).1,
    (flushBuffer_clearsBeforeCall "client-1" ⟨["a", "b", "a"], 3⟩
      (fun hc => absurd hc.1 (by decide)) (by decide)).2.2.1⟩

/-- Evaluation of `findMatchingQuest` on a single candidate located exactly
at the user, whose oracle verdict is `isMatch = true` with confidence
`conf`: the outcome flips between "match" and "no-match" exactly at
`conf ≥ 90`. -/
theorem findMatchingQuest_single_eval (conf : ℝ) :
    findMatchingQuest
      [⟨"q1", "org", "desc", 45.75372, 21.22571, "http://img", 100, 100⟩] []
      (fun _ _ _ => .ok ⟨true, conf, "reason", none⟩) "user.jpg" ORIGIN =
    (if conf ≥ CONFIDENCE_THRESHOLD then
      ⟨some ⟨"q1", "org", "desc", 45.75372, 21.22571, "http://img", 100, 100⟩,
       ⟨true, conf, "reason", some "q1"⟩⟩
     else
      ⟨none, ⟨false, 0, "Nu s-a găsit niciun quest potrivit în această zonă", none⟩⟩) := by
  have h0 : haversineDistance ORIGIN ⟨45.75372, 21.22571⟩ = 0 :=
    haversineDistance_self ORIGIN
  rw [findMatchingQuest]
  simp only [List.filter_cons, List.filter_nil, h0, decide_eq_true_eq]
  rw [if_pos (by norm_num : (0 : ℝ) ≤ 100)]
  simp only [bestMatchLoop, List.foldl_cons, List.foldl_nil, List.contains_nil,
    Bool.false_eq_true, not_false_eq_true, decide_True, List.filter_cons, List.filter_nil,
    if_true, List.length_cons, List.length_nil]
  rw [if_neg (by decide : ¬ (0 + 1 = 0)), if_neg (by decide : ¬ (0 + 1 = 0))]
  rw [if_neg (by decide : ¬ ("http://img" : String) = "")]
  by_cases hc : conf ≥ CONFIDENCE_THRESHOLD
  · rw [if_pos (⟨trivial, hc, Or.inl trivial⟩ :
      True ∧ conf ≥ CONFIDENCE_THRESHOLD ∧
        (True ∨ ∀ best ∈ (none : Option (ImageQuest × ImageComparisonResult)),
          conf > best.2.confidence)), if_pos hc]
  · rw [if_neg (fun hcon => hc hcon.2.1), if_neg hc]

/-- C3.  The matcher accepts a candidate exactly when the oracle says
`isMatch == true` with `confidence ≥ 90`: a single in-range candidate with
confidence `89` yields the "no-match" outcome (`quest = null`), while
confidence `90` yields the "match" outcome carrying the quest. -/
theorem findMatchingQuest_thresholdBoundary :
    (findMatchingQuest
      [⟨"q1", "org", "desc", 45.75372, 21.22571, "http://img", 100, 100⟩] []
      (fun _ _ _ => .ok ⟨true, 89, "reason", none⟩) "user.jpg" ORIGIN).quest = none ∧
    (findMatchingQuest
      [⟨"q1", "org", "desc", 45.75372, 21.22571, "http://img", 100, 100⟩] []
      (fun _ _ _ => .ok ⟨true, 89, "reason", none⟩) "user.jpg" ORIGIN).comparisonResult.isMatch
      = false ∧
    (findMatchingQuest
      [⟨"q1", "org", "desc", 45.75372, 21.22571, "http://img", 100, 100⟩] []
      (fun _ _ _ => .ok ⟨true, 90, "reason", none⟩) "user.jpg" ORIGIN).quest
      = some ⟨"q1", "org", "desc", 45.75372, 21.22571, "http://img", 100, 100⟩ ∧
    (findMatchingQuest
      [⟨"q1", "org", "desc", 45.75372, 21.22571, "http://img", 100, 100⟩] []
      (fun _ _ _ => .ok ⟨true, 90, "reason", none⟩) "user.jpg" ORIGIN).comparisonResult.isMatch
      = true := by
  rw [findMatchingQuest_single_eval 89, findMatchingQuest_single_eval 90]
  rw [if_neg (by norm_num [CONFIDENCE_THRESHOLD] : ¬ (89 : ℝ) ≥ CONFIDENCE_THRESHOLD)]
  rw [if_pos (by norm_num [CONFIDENCE_THRESHOLD] : (90 : ℝ) ≥ CONFIDENCE_THRESHOLD)]
  exact ⟨rfl, rfl, rfl, rfl⟩

/-- One `onLocationUpdate` step on a location whose cell is new and not yet
pending: the cell is inserted into `visitedCells` and appended to the
pending buffer; the auto-flush fires exactly when the buffer thereby
reaches 10 cells, clearing it and issuing one call. -/
theorem onLocationUpdate_freshCell (cid : String) (ps : ProviderState) (l : LatLng)
    (hcid : ¬ cid = "")
    (hfresh : latLngToCell l ∉ ps.trackingState.visitedCells)
    (hnp : latLngToCell l ∉ ps.pendingCellIds) :
    (onLocationUpdate (some cid) ps l).1.trackingState.visitedCells
      = insert (latLngToCell l) ps.trackingState.visitedCells ∧
    (if ps.pendingCellIds.length + 1 ≥ 10 then
      (onLocationUpdate (some cid) ps l).1.pendingCellIds = [] ∧
      ∃ call, (onLocationUpdate (some cid) ps l).2 = some call
     else
      (onLocationUpdate (some cid) ps l).1.pendingCellIds
        = ps.pendingCellIds ++ [latLngToCell l] ∧
      (onLocationUpdate (some cid) ps l).2 = none) := by
  have hres_new : (handleLocationUpdate ps.trackingState l).newCellVisited = true := by
    simp [handleLocationUpdate, hfresh]
  have hres_cell : (handleLocationUpdate ps.trackingState l).lastCellId = latLngToCell l := by
    simp [handleLocationUpdate]
  have hres_vis : (handleLocationUpdate ps.trackingState l).state.visitedCells
      = insert (latLngToCell l) ps.trackingState.visitedCells := by
    simp [handleLocationUpdate, hfresh]
  by_cases h10 : ps.pendingCellIds.length + 1 ≥ 10
  · rw [if_pos h10]
    refine ⟨?_, ?_, ?_⟩ <;>
      simp [onLocationUpdate, hres_new, hres_cell, hres_vis, hnp, jsFalsyStr, hcid, h10]
  · rw [if_neg h10]
    refine ⟨?_, ?_, ?_⟩ <;>
      simp [onLocationUpdate, hres_new, hres_cell, hres_vis, hnp, jsFalsyStr, hcid, h10]

/-- Filling the pending buffer with fresh distinct cells below the
threshold: as long as the buffer stays under 10 cells no call is issued and
the cells pile up in order; the run that makes it reach exactly 10 issues
exactly one call and leaves the buffer empty. -/
theorem runUpdates_fill (cid : String) (hcid : ¬ cid = "") :
    ∀ (locs : List LatLng) (ps : ProviderState),
      (locs.map latLngToCell).Nodup →
      (∀ c ∈ locs.map latLngToCell, c ∉ ps.trackingState.visitedCells) →
      (∀ c ∈ locs.map latLngToCell, c ∉ ps.pendingCellIds) →
      ps.pendingCellIds.length < 10 →
      ps.pendingCellIds.length + locs.length ≤ 10 →
      (if ps.pendingCellIds.length + locs.length < 10 then
        (runUpdates (some cid) ps locs).2 = [] ∧
        (runUpdates (some cid) ps locs).1.pendingCellIds
          = ps.pendingCellIds ++ locs.map latLngToCell
       else
        (runUpdates (some cid) ps locs).2.length = 1 ∧
        (runUpdates (some cid) ps locs).1.pendingCellIds = []) := by
  intro locs
  induction locs with
  | nil =>
    intro ps _ _ _ hk _
    rw [if_pos (by simpa using hk)]
    exact ⟨rfl, by simp [runUpdates]⟩
  | cons l rest ih =>
    intro ps hnodup hvis hnp hk htot
    have hfresh : latLngToCell l ∉ ps.trackingState.visitedCells :=
      hvis _ (by simp)
    have hnp1 : latLngToCell l ∉ ps.pendingCellIds :=
      hnp _ (by simp)
    have hstep := onLocationUpdate_freshCell cid ps l hcid hfresh hnp1
    rw [runUpdates]
    by_cases h10 : ps.pendingCellIds.length + 1 ≥ 10
    · -- the step flushes; the remaining suffix must be empty
      rw [if_pos h10] at hstep
      obtain ⟨hvis', hcleared, call, hcall⟩ := hstep
      have hrest : rest = [] := by
        have := htot
        simp only [List.length_cons] at this
        have : rest.length = 0 := by omega
        exact List.length_eq_zero.mp this
      subst hrest
      rw [if_neg (by simp only [List.length_cons]; omega)]
      constructor
      · simp [runUpdates, hcall]
      · simp [runUpdates, hcleared]
    · rw [if_neg h10] at hstep
      obtain ⟨hvis', hpend, hnone⟩ := hstep
      have hnodup_rest : (rest.map latLngToCell).Nodup := by
        simp only [List.map_cons, List.nodup_cons] at hnodup
        exact hnodup.2
      have hhead_notin : latLngToCell l ∉ rest.map latLngToCell := by
        simp only [List.map_cons, List.nodup_cons] at hnodup
        exact hnodup.1
      have hvis_rest : ∀ c ∈ rest.map latLngToCell,
          c ∉ (onLocationUpdate (some cid) ps l).1.trackingState.visitedCells := by
        intro c hc
        rw [hvis']
        simp only [Finset.mem_insert]
        rintro (rfl | hmem)
        · exact hhead_notin hc
        · exact hvis c (by simp [hc]) hmem
      have hnp_rest : ∀ c ∈ rest.map latLngToCell,
          c ∉ (onLocationUpdate (some cid) ps l).1.pendingCellIds := by
        intro c hc
        rw [hpend]
        simp only [List.mem_append, List.mem_singleton]
        rintro (hmem | rfl)
        · exact hnp c (by simp [hc]) hmem
        · exact hhead_notin hc
      have hk' : (onLocationUpdate (some cid) ps l).1.pendingCellIds.length < 10 := by
        rw [hpend]
        simp only [List.length_append, List.length_cons, List.length_nil]
        omega
      have htot' : (onLocationUpdate (some cid) ps l).1.pendingCellIds.length
          + rest.length ≤ 10 := by
        rw [hpend]
        simp only [List.length_append, List.length_cons, List.length_nil] at htot ⊢
        omega
      have hrec := ih (onLocationUpdate (some cid) ps l).1
        hnodup_rest hvis_rest hnp_rest hk' htot'
      rw [hpend] at hrec
      simp only [List.length_append, List.length_cons, List.length_nil] at hrec ⊢
      by_cases hfin : ps.pendingCellIds.length + (rest.length + 1) < 10
      · rw [if_pos hfin]
        rw [if_pos (by omega)] at hrec
        obtain ⟨hcalls, hpend'⟩ := hrec
        constructor
        · simp [hnone, hcalls]
        · rw [hpend']
          simp
      · rw [if_neg hfin]
        rw [if_neg (by omega)] at hrec
        obtain ⟨hcalls, hpend'⟩ := hrec
        constructor
        · simp [hnone, hcalls]
        · exact hpend'

/-- C5.  Starting from an empty pending buffer, ten location fixes landing
in ten pairwise-distinct unvisited cells trigger NO flush during the first
nine updates, exactly one auto-flush over the whole run (at the tenth
update, when the pending list reaches length 10), and leave the pending
cell-id list empty immediately after. -/
theorem tenNewCells_autoFlushOnce (cid : String) (ps : ProviderState)
    (locs : List LatLng)
    (hcid : ¬ cid = "")
    (hlen : locs.length = 10)
    (hnodup : (locs.map latLngToCell).Nodup)
    (hvis : ∀ c ∈ locs.map latLngToCell, c ∉ ps.trackingState.visitedCells)
    (hempty : ps.pendingCellIds = []) :
    (runUpdates (some cid) ps (locs.take 9)).2 = [] ∧
    (runUpdates (some cid) ps locs).2.length = 1 ∧
    (runUpdates (some cid) ps locs).1.pendingCellIds = [] := by
  have hfull := runUpdates_fill cid hcid locs ps hnodup hvis
    (by intro c _; rw [hempty]; simp)
    (by rw [hempty]; simp)
    (by rw [hempty]; simp [hlen])
  rw [hempty] at hfull
  simp only [List.length_nil, List.nil_append, Nat.zero_add, hlen] at hfull
  rw [if_neg (by omega)] at hfull
  have htake_sub : ∀ c ∈ (locs.take 9).map latLngToCell, c ∈ locs.map latLngToCell := by
    intro c hc
    rcases List.mem_map.mp hc with ⟨a, ha, rfl⟩
    exact List.mem_map_of_mem _ (List.mem_of_mem_take ha)
  have hlen9 : (locs.take 9).length = 9 := by
    rw [List.length_take, hlen]
    decide
  have htake := runUpdates_fill cid hcid (locs.take 9) ps
    (hnodup.sublist ((List.take_sublist 9 locs).map latLngToCell))
    (fun c hc => hvis c (htake_sub c hc))
    (by intro c _; rw [hempty]; simp)
    (by rw [hempty]; simp)
    (by rw [hempty]; simp [hlen9])
  rw [hempty] at htake
  simp only [List.length_nil, List.nil_append, Nat.zero_add, hlen9] at htake
  rw [if_pos (by omega : 9 < 10)] at htake
  exact ⟨htake.1, hfull.1, hfull.2⟩

/-- Moving due north from the origin by `50 k / 111320` degrees of latitude
lands in cell `"0_k"`: the longitude offset is zero (so the x index is `0`
whatever the value of `cos` at the origin latitude), and the latitude
offset converts back to exactly `50 k` meters, i.e. y index `k`. -/
theorem latLngToCell_vertical (k : ℕ) :
    latLngToCell ⟨45.75372 + 50 * (k : ℝ) / 111320, 21.22571⟩
      = toString (0 : ℤ) ++ "_" ++ toString (k : ℤ) := by
  have hx : ⌊(((⟨45.75372 + 50 * (k : ℝ) / 111320, 21.22571⟩ : LatLng).lng - ORIGIN.lng)
      * metersPerDegLng ORIGIN.lat) / CELL_SIZE_METERS⌋ = (0 : ℤ) := by
    show ⌊(((21.22571 : ℝ) - 21.22571) * metersPerDegLng ORIGIN.lat) / CELL_SIZE_METERS⌋
      = (0 : ℤ)
    rw [sub_self, zero_mul, zero_div, Int.floor_zero]
  have hy : ⌊(((⟨45.75372 + 50 * (k : ℝ) / 111320, 21.22571⟩ : LatLng).lat - ORIGIN.lat)
      * METERS_PER_DEG_LAT) / CELL_SIZE_METERS⌋ = (k : ℤ) := by
    have harg : (((⟨45.75372 + 50 * (k : ℝ) / 111320, 21.22571⟩ : LatLng).lat - ORIGIN.lat)
        * METERS_PER_DEG_LAT) / CELL_SIZE_METERS = (k : ℝ) := by
      show (((45.75372 : ℝ) + 50 * (k : ℝ) / 111320 - 45.75372) * 111320) / 50 = (k : ℝ)
      rw [add_sub_cancel_left]
      field_simp
    rw [harg, Int.floor_natCast]
  show toString ⌊(((⟨45.75372 + 50 * (k : ℝ) / 111320, 21.22571⟩ : LatLng).lng - ORIGIN.lng)
      * metersPerDegLng ORIGIN.lat) / CELL_SIZE_METERS⌋ ++ "_"
    ++ toString ⌊(((⟨45.75372 + 50 * (k : ℝ) / 111320, 21.22571⟩ : LatLng).lat - ORIGIN.lat)
      * METERS_PER_DEG_LAT) / CELL_SIZE_METERS⌋ = _
  rw [hx, hy]

/-- Witness for C5: ten points stepping 50 m north from the origin, cells
`"0_0" … "0_9"`, starting from a fresh provider state. -/
theorem tenNewCells_autoFlushOnce_witness :
    (([⟨45.75372 + 50 * ((0 : ℕ) : ℝ) / 111320, 21.22571⟩,
       ⟨45.75372 + 50 * ((1 : ℕ) : ℝ) / 111320, 21.22571⟩,
       ⟨45.75372 + 50 * ((2 : ℕ) : ℝ) / 111320, 21.22571⟩,
       ⟨45.75372 + 50 * ((3 : ℕ) : ℝ) / 111320, 21.22571⟩,
       ⟨45.75372 + 50 * ((4 : ℕ) : ℝ) / 111320, 21.22571⟩,
       ⟨45.75372 + 50 * ((5 : ℕ) : ℝ) / 111320, 21.22571⟩,
       ⟨45.75372 + 50 * ((6 : ℕ) : ℝ) / 111320, 21.22571⟩,
       ⟨45.75372 + 50 * ((7 : ℕ) : ℝ) / 111320, 21.22571⟩,
       ⟨45.75372 + 50 * ((8 : ℕ) : ℝ) / 111320, 21.22571⟩,
       ⟨45.75372 + 50 * ((9 : ℕ) : ℝ) / 111320, 21.22571⟩] : List LatLng).length = 10 ∧
     (([⟨45.75372 + 50 * ((0 : ℕ) : ℝ) / 111320, 21.22571⟩,
       ⟨45.75372 + 50 * ((1 : ℕ) : ℝ) / 111320, 21.22571⟩,
       ⟨45.75372 + 50 * ((2 : ℕ) : ℝ) / 111320, 21.22571⟩,
       ⟨45.75372 + 50 * ((3 : ℕ) : ℝ) / 111320, 21.22571⟩,
       ⟨45.75372 + 50 * ((4 : ℕ) : ℝ) / 111320, 21.22571⟩,
       ⟨45.75372 + 50 * ((5 : ℕ) : ℝ) / 111320, 21.22571⟩,
       ⟨45.75372 + 50 * ((6 : ℕ) : ℝ) / 111320, 21.22571⟩,
       ⟨45.75372 + 50 * ((7 : ℕ) : ℝ) / 111320, 21.22571⟩,
       ⟨45.75372 + 50 * ((8 : ℕ) : ℝ) / 111320, 21.22571⟩,
       ⟨45.75372 + 50 * ((9 : ℕ) : ℝ) / 111320, 21.22571⟩] : List LatLng).map
        latLngToCell).Nodup) ∧
    (runUpdates (some "client-1") ⟨createInitialTrackingState, [], [], 0⟩
      [⟨45.75372 + 50 * ((0 : ℕ) : ℝ) / 111320, 21.22571⟩,
       ⟨45.75372 + 50 * ((1 : ℕ) : ℝ) / 111320, 21.22571⟩,
       ⟨45.75372 + 50 * ((2 : ℕ) : ℝ) / 111320, 21.22571⟩,
       ⟨45.75372 + 50 * ((3 : ℕ) : ℝ) / 111320, 21.22571⟩,
       ⟨45.75372 + 50 * ((4 : ℕ) : ℝ) / 111320, 21.22571⟩,
       ⟨45.75372 + 50 * ((5 : ℕ) : ℝ) / 111320, 21.22571⟩,
       ⟨45.75372 + 50 * ((6 : ℕ) : ℝ) / 111320, 21.22571⟩,
       ⟨45.75372 + 50 * ((7 : ℕ) : ℝ) / 111320, 21.22571⟩,
       ⟨45.75372 + 50 * ((8 : ℕ) : ℝ) / 111320, 21.22571⟩,
       ⟨45.75372 + 50 * ((9 : ℕ) : ℝ) / 111320, 21.22571⟩]).2.length = 1 ∧
    (runUpdates (some "client-1") ⟨createInitialTrackingState, [], [], 0⟩
      [⟨45.75372 + 50 * ((0 : ℕ) : ℝ) / 111320, 21.22571⟩,
       ⟨45.75372 + 50 * ((1 : ℕ) : ℝ) / 111320, 21.22571⟩,
       ⟨45.75372 + 50 * ((2 : ℕ) : ℝ) / 111320, 21.22571⟩,
       ⟨45.75372 + 50 * ((3 : ℕ) : ℝ) / 111320, 21.22571⟩,
       ⟨45.75372 + 50 * ((4 : ℕ) : ℝ) / 111320, 21.22571⟩,
       ⟨45.75372 + 50 * ((5 : ℕ) : ℝ) / 111320, 21.22571⟩,
       ⟨45.75372 + 50 * ((6 : ℕ) : ℝ) / 111320, 21.22571⟩,
       ⟨45.75372 + 50 * ((7 : ℕ) : ℝ) / 111320, 21.22571⟩,
       ⟨45.75372 + 50 * ((8 : ℕ) : ℝ) / 111320, 21.22571⟩,
       ⟨45.75372 + 50 * ((9 : ℕ) : ℝ) / 111320, 21.22571⟩]).1.pendingCellIds = [] := by
  have hnodup : (([⟨45.75372 + 50 * ((0 : ℕ) : ℝ) / 111320, 21.22571⟩,
       ⟨45.75372 + 50 * ((1 : ℕ) : ℝ) / 111320, 21.22571⟩,
       ⟨45.75372 + 50 * ((2 : ℕ) : ℝ) / 111320, 21.22571⟩,
       ⟨45.75372 + 50 * ((3 : ℕ) : ℝ) / 111320, 21.22571⟩,
       ⟨45.75372 + 50 * ((4 : ℕ) : ℝ) / 111320, 21.22571⟩,
       ⟨45.75372 + 50 * ((5 : ℕ) : ℝ) / 111320, 21.22571⟩,
       ⟨45.75372 + 50 * ((6 : ℕ) : ℝ) / 111320, 21.22571⟩,
       ⟨45.75372 + 50 * ((7 : ℕ) : ℝ) / 111320, 21.22571⟩,
       ⟨45.75372 + 50 * ((8 : ℕ) : ℝ) / 111320, 21.22571⟩,
       ⟨45.75372 + 50 * ((9 : ℕ) : ℝ) / 111320, 21.22571⟩] : List LatLng).map
        latLngToCell).Nodup := by
    simp only [List.map_cons, List.map_nil, latLngToCell_vertical]
    decide
  have hmain := tenNewCells_autoFlushOnce "client-1"
    ⟨createInitialTrackingState, [], [], 0⟩
    [⟨45.75372 + 50 * ((0 : ℕ) : ℝ) / 111320, 21.22571⟩,
     ⟨45.75372 + 50 * ((1 : ℕ) : ℝ) / 111320, 21.22571⟩,
     ⟨45.75372 + 50 * ((2 : ℕ) : ℝ) / 111320, 21.22571⟩,
     ⟨45.75372 + 50 * ((3 : ℕ) : ℝ) / 111320, 21.22571⟩,
     ⟨45.75372 + 50 * ((4 : ℕ) : ℝ) / 111320, 21.22571⟩,
     ⟨45.75372 + 50 * ((5 : ℕ) : ℝ) / 111320, 21.22571⟩,
     ⟨45.75372 + 50 * ((6 : ℕ) : ℝ) / 111320, 21.22571⟩,
     ⟨45.75372 + 50 * ((7 : ℕ) : ℝ) / 111320, 21.22571⟩,
     ⟨45.75372 + 50 * ((8 : ℕ) : ℝ) / 111320, 21.22571⟩,
     ⟨45.75372 + 50 * ((9 : ℕ) : ℝ) / 111320, 21.22571⟩]
    (by decide) rfl hnodup
    (by intro c _; simp [createInitialTrackingState])
    rfl
  exact ⟨⟨rfl, hnodup⟩, hmain.2.1, hmain.2.2⟩

theorem latLngToCell_floor (p : LatLng) :
    latLngToCell p =
      toString ⌊((p.lng - ORIGIN.lng) * metersPerDegLng ORIGIN.lat) / CELL_SIZE_METERS⌋
        ++ "_"
        ++ toString ⌊((p.lat - ORIGIN.lat) * METERS_PER_DEG_LAT) / CELL_SIZE_METERS⌋ := rfl

/-- `cellCenter` parses back exactly the indices `latLngToCell` printed. -/
theorem cellCenter_mk (x y : ℤ) :
    cellCenter (toString x ++ "_" ++ toString y)
      = metersToLatLng (((x : ℝ) + 0.5) * CELL_SIZE_METERS)
          (((y : ℝ) + 0.5) * CELL_SIZE_METERS) := by
  rw [cellCenter, jsSplitUnderscore_pair]
  simp only [List.getD_cons_zero, List.getD_cons_succ, parseIntD_toString]

/-- `cellToPolygon` parses back exactly the indices `latLngToCell` printed
and returns the four corners NW, NE, SE, SW around the cell center. -/
theorem cellToPolygon_mk (x y : ℤ) :
    cellToPolygon (toString x ++ "_" ++ toString y)
      = [ metersToLatLng (((x : ℝ) + 0.5) * CELL_SIZE_METERS - CELL_SIZE_METERS / 2)
            (((y : ℝ) + 0.5) * CELL_SIZE_METERS + CELL_SIZE_METERS / 2)
        , metersToLatLng (((x : ℝ) + 0.5) * CELL_SIZE_METERS + CELL_SIZE_METERS / 2)
            (((y : ℝ) + 0.5) * CELL_SIZE_METERS + CELL_SIZE_METERS / 2)
        , metersToLatLng (((x : ℝ) + 0.5) * CELL_SIZE_METERS + CELL_SIZE_METERS / 2)
            (((y : ℝ) + 0.5) * CELL_SIZE_METERS - CELL_SIZE_METERS / 2)
        , metersToLatLng (((x : ℝ) + 0.5) * CELL_SIZE_METERS - CELL_SIZE_METERS / 2)
            (((y : ℝ) + 0.5) * CELL_SIZE_METERS - CELL_SIZE_METERS / 2) ] := by
  rw [cellToPolygon, jsSplitUnderscore_pair]
  simp only [List.getD_cons_zero, List.getD_cons_succ, parseIntD_toString]

theorem metersPerDegLng_origin_pos : 0 < metersPerDegLng ORIGIN.lat := by
  rw [metersPerDegLng]
  apply mul_pos (by norm_num)
  apply Real.cos_pos_of_mem_Ioo
  have hπ := Real.pi_pos
  constructor
  · show -(π / 2) < (45.75372 : ℝ) * π / 180
    nlinarith
  · show (45.75372 : ℝ) * π / 180 < π / 2
    nlinarith

/-- C7.  `cellOf` is a deterministic function of the coordinate, and the
center `centerOf(cellOf(p))` lies inside the square spanned by the four
corners `polygonOf(cellOf(p))` (returned in NW, NE, SE, SW order): its
latitude is between the south and north edges and its longitude between the
west and east edges, where the corner latitudes and longitudes align
pairwise into an axis-parallel square. -/
theorem cellCenter_inside_cellPolygon (p : LatLng) :
    (∀ q : LatLng, q.lat = p.lat → q.lng = p.lng → latLngToCell q = latLngToCell p) ∧
    ∃ nw ne se sw : LatLng,
      cellToPolygon (latLngToCell p) = [nw, ne, se, sw] ∧
      sw.lat ≤ (cellCenter (latLngToCell p)).lat ∧
      (cellCenter (latLngToCell p)).lat ≤ nw.lat ∧
      nw.lng ≤ (cellCenter (latLngToCell p)).lng ∧
      (cellCenter (latLngToCell p)).lng ≤ ne.lng ∧
      ne.lat = nw.lat ∧ se.lat = sw.lat ∧ sw.lng = nw.lng ∧ se.lng = ne.lng := by
  constructor
  · intro q hlat hlng
    cases p
    cases q
    simp only at hlat hlng
    rw [hlat, hlng]
  · rw [latLngToCell_floor p, cellCenter_mk, cellToPolygon_mk]
    have h0 : (0 : ℝ) ≤ CELL_SIZE_METERS / 2 := by norm_num [CELL_SIZE_METERS]
    have hM : (0 : ℝ) < METERS_PER_DEG_LAT := by norm_num [METERS_PER_DEG_LAT]
    have hL : (0 : ℝ) < metersPerDegLng ORIGIN.lat := metersPerDegLng_origin_pos
    refine ⟨_, _, _, _, rfl, ?_, ?_, ?_, ?_, rfl, rfl, rfl, rfl⟩
    · simp only [metersToLatLng]
      exact add_le_add_left ((div_le_div_right hM).mpr (sub_le_self _ h0)) _
    · simp only [metersToLatLng]
      exact add_le_add_left ((div_le_div_right hM).mpr (le_add_of_nonneg_right h0)) _
    · simp only [metersToLatLng]
      exact add_le_add_left ((div_le_div_right hL).mpr (sub_le_self _ h0)) _
    · simp only [metersToLatLng]
      exact add_le_add_left ((div_le_div_right hL).mpr (le_add_of_nonneg_right h0)) _
